import Mathlib

/-!
Verification of the fact-ledger and streak-accounting subsystem of
HealthFactAI: a shallow embedding of `src/schemas/user_facts.py` (streak
engine), `src/routers/user_facts.py` (ledger entry points) and the
timestamp handling of `src/streamlit_helpers/user_integration.py`,
together with proofs of the specified properties.
-/

namespace HealthFactAI

/-! ## Calendar model: Python `datetime.date` (proleptic Gregorian) -/

/-- Python `calendar.isleap` / `datetime._is_leap`. -/
def isLeap (y : Nat) : Bool :=
  (y % 4 == 0 && y % 100 != 0) || (y % 400 == 0)

/-- Python `datetime._days_in_month`. -/
def daysInMonth (y : Nat) : Nat → Nat
  | 2 => if isLeap y then 29 else 28
  | 4 | 6 | 9 | 11 => 30
  | _ => 31

structure Date where
  year : Nat
  month : Nat
  day : Nat
deriving DecidableEq, Repr

/-- The ranges enforced by the Python `date` constructor
(`MINYEAR = 1`, `MAXYEAR = 9999`). -/
def Date.Valid (d : Date) : Prop :=
  1 ≤ d.year ∧ d.year ≤ 9999 ∧ 1 ≤ d.month ∧ d.month ≤ 12 ∧
    1 ≤ d.day ∧ d.day ≤ daysInMonth d.year d.month

instance (d : Date) : Decidable d.Valid := by
  unfold Date.Valid; infer_instance

/-- Total days in months `1..k` of year `y` (prefix sums of the
`_DAYS_BEFORE_MONTH` table of `datetime`). -/
def sumDim (y : Nat) : Nat → Nat
  | 0 => 0
  | k + 1 => sumDim y k + daysInMonth y (k + 1)

/-- Python `datetime._days_before_month`. -/
def daysBeforeMonth (y m : Nat) : Nat := sumDim y (m - 1)

/-- Python `datetime._days_before_year`. -/
def daysBeforeYear (y : Nat) : Nat :=
  365 * (y - 1) + (y - 1) / 4 - (y - 1) / 100 + (y - 1) / 400

/-- Python `date.toordinal` (day 1 = 0001-01-01). -/
def Date.toOrdinal (d : Date) : Nat :=
  daysBeforeYear d.year + daysBeforeMonth d.year d.month + d.day

/-- One calendar day earlier: Python `d - timedelta(days=1)`. -/
def predDate (d : Date) : Date :=
  if 2 ≤ d.day then ⟨d.year, d.month, d.day - 1⟩
  else if 2 ≤ d.month then ⟨d.year, d.month - 1, daysInMonth d.year (d.month - 1)⟩
  else ⟨d.year - 1, 12, 31⟩

/-- Python `d - timedelta(days=k)`. -/
def subDays (d : Date) : Nat → Date
  | 0 => d
  | k + 1 => predDate (subDays d k)

/-- src/schemas/user_facts.py `dates_equal`: componentwise comparison. -/
def dates_equal (d1 d2 : Date) : Bool :=
  d1.year == d2.year && d1.month == d2.month && d1.day == d2.day

/-- One step of a lexicographic comparison chain: compare a component,
fall through to `rest` on equality. -/
def lexStep (a b : Nat) (rest : Bool) : Bool :=
  if a = b then rest else decide (a < b)

/-- Python `date.__le__`: lexicographic on (year, month, day). -/
def dateLe (d1 d2 : Date) : Bool :=
  lexStep d1.year d2.year (lexStep d1.month d2.month (decide (d1.day ≤ d2.day)))

structure DateTime where
  date : Date
  hour : Nat
  minute : Nat
  second : Nat
deriving DecidableEq, Repr

/-- Ranges enforced by the Python `datetime` constructor (microseconds are
not modelled: the code under verification only ever writes and compares
second-precision values). -/
def DateTime.Valid (t : DateTime) : Prop :=
  t.date.Valid ∧ t.hour ≤ 23 ∧ t.minute ≤ 59 ∧ t.second ≤ 59

instance (t : DateTime) : Decidable t.Valid := by
  unfold DateTime.Valid; infer_instance

/-- Python `datetime.min` (0001-01-01 00:00:00). -/
def dtMin : DateTime := ⟨⟨1, 1, 1⟩, 0, 0, 0⟩

/-- Python `datetime.__le__`: lexicographic on all six fields. -/
def dtLe (t1 t2 : DateTime) : Bool :=
  lexStep t1.date.year t2.date.year
    (lexStep t1.date.month t2.date.month
      (lexStep t1.date.day t2.date.day
        (lexStep t1.hour t2.hour
          (lexStep t1.minute t2.minute (decide (t1.second ≤ t2.second))))))

/-! ## Timestamp formatting (`strftime`) -/

def digitChar (k : Nat) : Char := Char.ofNat (48 + k)

def pad2 (n : Nat) : List Char := [digitChar (n / 10 % 10), digitChar (n % 10)]

def pad4 (n : Nat) : List Char :=
  [digitChar (n / 1000 % 10), digitChar (n / 100 % 10),
   digitChar (n / 10 % 10), digitChar (n % 10)]

/-- Python `d.strftime("%Y-%m-%d")` as used by `compute_new_streak`. -/
def formatDate (d : Date) : String :=
  String.mk (pad4 d.year ++ '-' :: pad2 d.month ++ '-' :: pad2 d.day)

/-- Python `now.strftime("%Y-%m-%dT%H:%M:%SZ")` as used by `add_fact`. -/
def formatDateTime (t : DateTime) : String :=
  String.mk (pad4 t.date.year ++ '-' :: pad2 t.date.month ++ '-' :: pad2 t.date.day ++
    'T' :: pad2 t.hour ++ ':' :: pad2 t.minute ++ ':' :: pad2 t.second ++ ['Z'])

/-- Legacy fractional-second form `%Y-%m-%dT%H:%M:%S.<6 digits>Z`
(`datetime.isoformat` + "Z" style), read by the streamlit helper. -/
def formatDateTimeMicro (t : DateTime) (u : Nat) : String :=
  String.mk (pad4 t.date.year ++ '-' :: pad2 t.date.month ++ '-' :: pad2 t.date.day ++
    'T' :: pad2 t.hour ++ ':' :: pad2 t.minute ++ ':' :: pad2 t.second ++
    '.' :: digitChar (u / 100000 % 10) :: digitChar (u / 10000 % 10) ::
    digitChar (u / 1000 % 10) :: digitChar (u / 100 % 10) ::
    digitChar (u / 10 % 10) :: digitChar (u % 10) :: ['Z'])

/-! ## Timestamp parsing (`strptime`)

These mirror CPython's `_strptime` field regexes (two-digit alternatives
tried before one-digit ones, exactly as in the regex alternations) followed
by the `date`/`datetime` constructor validation. -/

def digit? (c : Char) : Option Nat :=
  if c.isDigit then some (c.toNat - 48) else none

/-- Reader for `%Y`: exactly four digits. -/
def readYear4 : List Char → Option (Nat × List Char)
  | a :: b :: c :: d :: rest =>
    match digit? a, digit? b, digit? c, digit? d with
    | some x1, some x2, some x3, some x4 =>
      some (x1 * 1000 + x2 * 100 + x3 * 10 + x4, rest)
    | _, _, _, _ => none
  | _ => none

/-- Reader for `%m`: regex `1[0-2]|0[1-9]|[1-9]`. -/
def readMonth : List Char → Option (Nat × List Char)
  | a :: b :: rest =>
    match digit? a, digit? b with
    | some x, some y =>
      if 10 ≤ 10 * x + y ∧ 10 * x + y ≤ 12 then some (10 * x + y, rest)
      else if x = 0 ∧ 1 ≤ y then some (y, rest)
      else if 1 ≤ x then some (x, b :: rest)
      else none
    | some x, none => if 1 ≤ x then some (x, b :: rest) else none
    | _, _ => none
  | [a] =>
    match digit? a with
    | some x => if 1 ≤ x then some (x, []) else none
    | none => none
  | [] => none

/-- Reader for `%d`: regex `3[01]|[12]\d|0[1-9]|[1-9]`. -/
def readDay : List Char → Option (Nat × List Char)
  | a :: b :: rest =>
    match digit? a, digit? b with
    | some x, some y =>
      if x = 3 ∧ y ≤ 1 then some (30 + y, rest)
      else if 1 ≤ x ∧ x ≤ 2 then some (10 * x + y, rest)
      else if x = 0 ∧ 1 ≤ y then some (y, rest)
      else if 1 ≤ x then some (x, b :: rest)
      else none
    | some x, none => if 1 ≤ x then some (x, b :: rest) else none
    | _, _ => none
  | [a] =>
    match digit? a with
    | some x => if 1 ≤ x then some (x, []) else none
    | none => none
  | [] => none

/-- Reader for `%H`: regex `2[0-3]|[0-1]\d|\d`. -/
def readHour : List Char → Option (Nat × List Char)
  | a :: b :: rest =>
    match digit? a, digit? b with
    | some x, some y =>
      if x = 2 ∧ y ≤ 3 then some (20 + y, rest)
      else if x ≤ 1 then some (10 * x + y, rest)
      else some (x, b :: rest)
    | some x, none => some (x, b :: rest)
    | _, _ => none
  | [a] =>
    match digit? a with
    | some x => some (x, [])
    | none => none
  | [] => none

/-- Reader for `%M`: regex `[0-5]\d|\d`. -/
def readMinute : List Char → Option (Nat × List Char)
  | a :: b :: rest =>
    match digit? a, digit? b with
    | some x, some y =>
      if x ≤ 5 then some (10 * x + y, rest) else some (x, b :: rest)
    | some x, none => some (x, b :: rest)
    | _, _ => none
  | [a] =>
    match digit? a with
    | some x => some (x, [])
    | none => none
  | [] => none

/-- Reader for `%S`: regex `6[0-1]|[0-5]\d|\d` (leap seconds pass the regex but are
then rejected by the `datetime` constructor). -/
def readSecond : List Char → Option (Nat × List Char)
  | a :: b :: rest =>
    match digit? a, digit? b with
    | some x, some y =>
      if x = 6 ∧ y ≤ 1 then some (60 + y, rest)
      else if x ≤ 5 then some (10 * x + y, rest)
      else some (x, b :: rest)
    | some x, none => some (x, b :: rest)
    | _, _ => none
  | [a] =>
    match digit? a with
    | some x => some (x, [])
    | none => none
  | [] => none

/-- A literal character of the format string. -/
def expectChar (c : Char) : List Char → Option (List Char)
  | x :: rest => if x = c then some rest else none
  | [] => none

/-- Up to `n` leading digits (greedy). -/
def takeDigits : Nat → List Char → Nat × List Char
  | 0, cs => (0, cs)
  | _ + 1, [] => (0, [])
  | n + 1, c :: cs =>
    match digit? c with
    | some _ =>
      match takeDigits n cs with
      | (k, r) => (k + 1, r)
    | none => (0, c :: cs)

/-- Reader for `%f`: regex of one to six digits, greedy. Only success matters downstream, so
the numeric value of the fraction is not retained. -/
def readFrac (cs : List Char) : Option (List Char) :=
  match takeDigits 6 cs with
  | (0, _) => none
  | (_ + 1, r) => some r

/-- Python `date(y, m, d)` constructor validation. -/
def mkDate (y m d : Nat) : Option Date :=
  if 1 ≤ y ∧ y ≤ 9999 ∧ 1 ≤ m ∧ m ≤ 12 ∧ 1 ≤ d ∧ d ≤ daysInMonth y m then
    some ⟨y, m, d⟩
  else none

/-- Python `datetime(y, mo, d, h, mi, s)` constructor validation. -/
def mkDateTime (y mo d h mi s : Nat) : Option DateTime :=
  match mkDate y mo d with
  | none => none
  | some dd => if h ≤ 23 ∧ mi ≤ 59 ∧ s ≤ 59 then some ⟨dd, h, mi, s⟩ else none

/-- Python `datetime.strptime(s, "%Y-%m-%d").date()`: the whole string must match. -/
def parseDateChars (cs : List Char) : Option Date := do
  let (y, r1) ← readYear4 cs
  let r2 ← expectChar '-' r1
  let (m, r3) ← readMonth r2
  let r4 ← expectChar '-' r3
  let (d, r5) ← readDay r4
  if r5 = [] then mkDate y m d else none

/-- The shared `%Y-%m-%dT%H:%M:%S` prefix of the datetime formats. -/
def readDateTime6 (cs : List Char) :
    Option ((Nat × Nat × Nat × Nat × Nat × Nat) × List Char) := do
  let (y, r1) ← readYear4 cs
  let r2 ← expectChar '-' r1
  let (mo, r3) ← readMonth r2
  let r4 ← expectChar '-' r3
  let (d, r5) ← readDay r4
  let r6 ← expectChar 'T' r5
  let (h, r7) ← readHour r6
  let r8 ← expectChar ':' r7
  let (mi, r9) ← readMinute r8
  let r10 ← expectChar ':' r9
  let (s, r11) ← readSecond r10
  some ((y, mo, d, h, mi, s), r11)

/-- Python `datetime.strptime(s, "%Y-%m-%dT%H:%M:%SZ")`. -/
def parseDateTimeChars (cs : List Char) : Option DateTime := do
  let (f, r) ← readDateTime6 cs
  let r2 ← expectChar 'Z' r
  if r2 = [] then mkDateTime f.1 f.2.1 f.2.2.1 f.2.2.2.1 f.2.2.2.2.1 f.2.2.2.2.2
  else none

/-- Python `datetime.strptime(s, "%Y-%m-%dT%H:%M:%S")`. -/
def parseDateTimeNoZ (cs : List Char) : Option DateTime := do
  let (f, r) ← readDateTime6 cs
  if r = [] then mkDateTime f.1 f.2.1 f.2.2.1 f.2.2.2.1 f.2.2.2.2.1 f.2.2.2.2.2
  else none

/-- Python `datetime.strptime(s, "%Y-%m-%dT%H:%M:%S.%f")`. -/
def parseDateTimeFrac (cs : List Char) : Option DateTime := do
  let (f, r) ← readDateTime6 cs
  let r2 ← expectChar '.' r
  let r3 ← readFrac r2
  if r3 = [] then mkDateTime f.1 f.2.1 f.2.2.1 f.2.2.2.1 f.2.2.2.2.1 f.2.2.2.2.2
  else none

/-! ## Streak engine: src/schemas/user_facts.py -/

/-- src/schemas/user_facts.py `parse_last_activity`: `None` and the empty
string are falsy; a `ValueError` from `strptime` becomes `None`. -/
def parse_last_activity (raw : Option String) : Option Date :=
  match raw with
  | none => none
  | some s => if s.data = [] then none else parseDateChars s.data

/-- Python `x or dflt` on an optional integer (`None` and `0` are falsy). -/
def pyOrInt (v : Option Int) (dflt : Int) : Int :=
  match v with
  | none => dflt
  | some x => if x = 0 then dflt else x

/-- src/schemas/user_facts.py `compute_new_streak`; `today` is the injected
clock value (`date.today()` at the call site in the router). -/
def compute_new_streak (current_streak longest_streak : Option Int)
    (last_activity_raw : Option String) (today : Date) : Int × Int × String :=
  let yesterday := predDate today
  let c := pyOrInt current_streak 0
  let l := pyOrInt longest_streak 0
  let new_current : Int :=
    match parse_last_activity last_activity_raw with
    | none => 1
    | some la =>
      if dates_equal la today then (if c = 0 then 1 else c)
      else if dates_equal la yesterday then c + 1
      else 1
  (new_current, max l new_current, formatDate today)

/-! ## Fact ledger and entry points: src/routers/user_facts.py -/

/-- A JSON value, for the deserialization model of `_load_facts`. -/
inductive Json
  | null
  | boolean (b : Bool)
  | num (n : Int)
  | str (s : String)
  | arr (xs : List Json)
  | obj (fields : List (String × Json))

/-- src/routers/user_facts.py `_load_facts`. `jsonLoads` abstracts the
Python stdlib `json.loads` (external to this repository); `none` stands
for a raised decode error, which the source swallows. -/
def _load_facts (jsonLoads : String → Option Json) (raw : Option String) :
    List Json :=
  match raw with
  | none => []
  | some s =>
    if s.data = [] then []
    else
      match jsonLoads s with
      | some (Json.arr xs) => xs
      | some _ => []
      | none => []

/-- One stored fact dictionary; `none` in a field models a missing key
(`dict.get` returning `None`). -/
structure FactEntry where
  content : Option String
  category : Option String
  source_url : Option String
  learned_at : Option String
deriving DecidableEq, Repr

/-- The request payload of `add_fact` (`FactCreate`). -/
structure FactCreate where
  content : String
  category : Option String
  source_url : Option String
deriving DecidableEq, Repr

/-- The error taxonomy surfaced by the router (404 / 403 / 422 / pydantic
validation failure). -/
inductive ApiError
  | notFound
  | forbidden
  | invalidArgument
  | validationError
deriving DecidableEq, Repr

/-- The gamification fields of one row of the `users` table, with the fact
list already deserialized. -/
structure UserRow where
  username : String
  facts : List FactEntry
  total_facts_count : Option Int
  current_streak : Option Int
  longest_streak : Option Int
  last_activity_date : Option String
deriving DecidableEq, Repr

/-- src/routers/user_facts.py `_ensure_user_access`: 404 when the id does
not exist, 403 when the row's username differs from the token's. -/
def _ensure_user_access (users : Nat → Option UserRow) (user_id : Nat)
    (caller : String) : Except ApiError UserRow :=
  match users user_id with
  | none => .error .notFound
  | some u => if u.username = caller then .ok u else .error .forbidden

/-- Modelled from the spec: the `FactCreate` pydantic schema the router
imports from `schemas.user_facts` is not among the provided sources; per
the spec, append "fails with ValidationError if entry.content is empty". -/
def validate_fact_create (p : FactCreate) : Except ApiError Unit :=
  if p.content = "" then .error .validationError else .ok ()

/-- src/routers/user_facts.py `add_fact` (lines 63-105), database and HTTP
glue elided: the caller's row is passed in and the updated row returned.
`now` and `today` are the two clock reads (`datetime.utcnow()` and the
`date.today()` default inside `compute_new_streak`). -/
def add_fact (row : UserRow) (payload : FactCreate) (now : DateTime)
    (today : Date) : Except ApiError UserRow :=
  match validate_fact_create payload with
  | .error e => .error e
  | .ok _ =>
    let newItem : FactEntry :=
      { content := some payload.content, category := payload.category,
        source_url := payload.source_url,
        learned_at := some (formatDateTime now) }
    let facts := row.facts ++ [newItem]
    let total := pyOrInt row.total_facts_count 0 + 1
    let r := compute_new_streak row.current_streak row.longest_streak
      row.last_activity_date today
    .ok { row with
          facts := facts,
          total_facts_count := some total,
          current_streak := some r.1,
          longest_streak := some r.2.1,
          last_activity_date := some r.2.2 }

/-- src/routers/user_facts.py `get_facts._parse_dt` (lines 125-131): total,
any failure yields `datetime.min`. -/
def _parse_dt (s : Option String) : DateTime :=
  match s with
  | none => dtMin
  | some s => if s.data = [] then dtMin else (parseDateTimeChars s.data).getD dtMin

/-- The comparison realised by `facts.sort(key=_parse_dt, reverse=True)`
(a stable sort w.r.t. the reversed datetime order of the keys). -/
def factLe (a b : FactEntry) : Bool :=
  dtLe (_parse_dt b.learned_at) (_parse_dt a.learned_at)

/-- The category filter of `get_facts` (line 122-123): applied only when
`category` is truthy, exact match against `f.get("category")`. -/
def filter_by_category (facts : List FactEntry) (category : Option String) :
    List FactEntry :=
  match category with
  | none => facts
  | some c => if c = "" then facts else facts.filter fun f => f.category == some c

/-- src/routers/user_facts.py `get_facts` body after the access guard
(lines 121-144): filter, stable sort newest-first, truncate; `total` is
the length of the filtered list. -/
def get_facts_core (facts : List FactEntry) (limit : Int)
    (category : Option String) : List FactEntry × Nat :=
  let filtered := filter_by_category facts category
  let sorted := filtered.mergeSort factLe
  (sorted.take limit.toNat, filtered.length)

/-- src/routers/user_facts.py `get_facts` (lines 108-146): the limit check
runs before any user lookup, then the access guard, then the core. -/
def get_facts (users : Nat → Option UserRow) (user_id : Nat) (caller : String)
    (limit : Int) (category : Option String) :
    Except ApiError (List FactEntry × Nat) :=
  if limit < 1 ∨ 500 < limit then .error .invalidArgument
  else
    match _ensure_user_access users user_id caller with
    | .error e => .error e
    | .ok u => .ok (get_facts_core u.facts limit category)

/-- src/routers/user_facts.py `get_streaks` weekly-window loop (lines
169-181): count facts whose parsed date lies in `[today - 6 days, today]`,
skipping missing or unparsable timestamps. -/
def facts_this_week (facts : List FactEntry) (today : Date) : Nat :=
  let week_ago := subDays today 6
  facts.countP fun f =>
    match f.learned_at with
    | none => false
    | some s =>
      if s.data = [] then false
      else
        match parseDateTimeChars s.data with
        | none => false
        | some dt => dateLe week_ago dt.date && dateLe dt.date today

/-! ## Streamlit consumer: src/streamlit_helpers/user_integration.py -/

/-- Python `str.rstrip("Z")`. -/
def rstripZ (cs : List Char) : List Char :=
  ((cs.reverse.dropWhile (· == 'Z')).reverse)

/-- src/streamlit_helpers/user_integration.py `show_recent_facts`
timestamp handling (lines 199-210): strip trailing `Z`s, choose the format
by the presence of a dot, parse; `none` models falling into the `except`
branch (which displays the raw string instead). -/
def show_recent_parse (ts : String) : Option DateTime :=
  let t := rstripZ ts.data
  if t.contains '.' then parseDateTimeFrac t else parseDateTimeNoZ t

/-! ## Helper lemmas: lexicographic comparisons -/

theorem lexStep_refl (a : Nat) {r : Bool} (h : r = true) : lexStep a a r = true := by
  simp [lexStep, h]

theorem lexStep_trans {a b c : Nat} {r1 r2 r3 : Bool}
    (h1 : lexStep a b r1 = true) (h2 : lexStep b c r2 = true)
    (h3 : r1 = true → r2 = true → r3 = true) : lexStep a c r3 = true := by
  unfold lexStep at *
  split at h1 <;> split at h2 <;> split <;> simp_all <;> omega

theorem lexStep_or {a b : Nat} {r1 r2 : Bool} (h : r1 = true ∨ r2 = true) :
    lexStep a b r1 = true ∨ lexStep b a r2 = true := by
  unfold lexStep
  rcases Nat.lt_trichotomy a b with h' | h' | h'
  · left; rw [if_neg (by omega)]; simpa using h'
  · subst h'
    rcases h with h | h
    · left; simpa using h
    · right; simpa using h
  · right; rw [if_neg (by omega)]; simpa using h'

theorem dtLe_refl (t : DateTime) : dtLe t t = true := by
  unfold dtLe
  exact lexStep_refl _ (lexStep_refl _ (lexStep_refl _ (lexStep_refl _
    (lexStep_refl _ (by simp)))))

theorem dtLe_trans {t1 t2 t3 : DateTime} (h1 : dtLe t1 t2 = true)
    (h2 : dtLe t2 t3 = true) : dtLe t1 t3 = true := by
  unfold dtLe at *
  refine lexStep_trans h1 h2 fun p1 q1 => ?_
  refine lexStep_trans p1 q1 fun p2 q2 => ?_
  refine lexStep_trans p2 q2 fun p3 q3 => ?_
  refine lexStep_trans p3 q3 fun p4 q4 => ?_
  refine lexStep_trans p4 q4 fun p5 q5 => ?_
  simp only [decide_eq_true_eq] at p5 q5 ⊢
  omega

theorem dtLe_total (t1 t2 : DateTime) : (dtLe t1 t2 || dtLe t2 t1) = true := by
  rw [Bool.or_eq_true]
  unfold dtLe
  refine lexStep_or (lexStep_or (lexStep_or (lexStep_or (lexStep_or ?_))))
  simp only [decide_eq_true_eq]
  omega

theorem dtMin_le {t : DateTime} (h1 : 1 ≤ t.date.year) (h2 : 1 ≤ t.date.month)
    (h3 : 1 ≤ t.date.day) : dtLe dtMin t = true := by
  show lexStep 1 t.date.year (lexStep 1 t.date.month (lexStep 1 t.date.day
    (lexStep 0 t.hour (lexStep 0 t.minute (decide (0 ≤ t.second)))))) = true
  unfold lexStep
  split_ifs <;> simp_all <;> omega

theorem dates_equal_iff {d1 d2 : Date} : dates_equal d1 d2 = true ↔ d1 = d2 := by
  obtain ⟨y1, m1, dd1⟩ := d1
  obtain ⟨y2, m2, dd2⟩ := d2
  simp [dates_equal, and_assoc]

/-! ## Helper lemmas: calendar arithmetic -/

theorem one_le_daysInMonth (y m : Nat) : 1 ≤ daysInMonth y m := by
  unfold daysInMonth
  split <;> try split
  all_goals omega

theorem daysInMonth_le_31 (y m : Nat) : daysInMonth y m ≤ 31 := by
  unfold daysInMonth
  split <;> try split
  all_goals omega

theorem sumDim_le_sumDim (y : Nat) {k k' : Nat} (h : k ≤ k') :
    sumDim y k ≤ sumDim y k' := by
  induction h with
  | refl => exact Nat.le_refl _
  | step _ ih => exact Nat.le_trans ih (Nat.le_add_right _ _)

theorem sumDim_twelve (y : Nat) :
    sumDim y 12 = 365 + (if isLeap y then 1 else 0) := by
  have e : sumDim y 12 = 0 + 31 + (if isLeap y then 29 else 28) + 31 + 30 + 31 +
      30 + 31 + 31 + 30 + 31 + 30 + 31 := rfl
  rw [e]
  cases isLeap y <;> simp

theorem daysBeforeMonth_succ (y : Nat) {m : Nat} (h : 1 ≤ m) :
    daysBeforeMonth y (m + 1) = daysBeforeMonth y m + daysInMonth y m := by
  obtain ⟨n, rfl⟩ : ∃ n, m = n + 1 := ⟨m - 1, by omega⟩
  simp [daysBeforeMonth, sumDim]

theorem isLeap_spec (y : Nat) :
    isLeap y = true ↔ ((y % 4 = 0 ∧ ¬(y % 100 = 0)) ∨ y % 400 = 0) := by
  simp [isLeap]

set_option maxHeartbeats 3000000 in
theorem daysBeforeYear_succ {y : Nat} (h : 1 ≤ y) :
    daysBeforeYear (y + 1) = daysBeforeYear y + 365 + (if isLeap y then 1 else 0) := by
  have hiff := isLeap_spec y
  unfold daysBeforeYear
  cases hL : isLeap y <;> rw [hL] at hiff <;> simp at hiff ⊢ <;> omega

theorem daysBeforeYear_mono {a b : Nat} (h : a ≤ b) :
    daysBeforeYear a ≤ daysBeforeYear b := by
  induction b with
  | zero =>
    have ha : a = 0 := by omega
    simp [ha]
  | succ n ih =>
    rcases Nat.lt_or_ge a (n + 1) with h' | h'
    · refine Nat.le_trans (ih (by omega)) ?_
      rcases Nat.eq_zero_or_pos n with hn | hn
      · subst hn
        have e0 : daysBeforeYear 0 = 0 := by decide
        have e1 : daysBeforeYear 1 = 0 := by decide
        omega
      · have := daysBeforeYear_succ hn
        omega
    · have ha : a = n + 1 := by omega
      simp [ha]

theorem toOrdinal_pos {d : Date} (hv : d.Valid) : 1 ≤ d.toOrdinal := by
  obtain ⟨_, _, _, _, h5, _⟩ := hv
  unfold Date.toOrdinal
  omega

theorem dbm_day_le {y m day : Nat} (h1 : 1 ≤ m) (h2 : m ≤ 12)
    (h3 : day ≤ daysInMonth y m) :
    daysBeforeMonth y m + day ≤ sumDim y 12 := by
  have h4 := daysBeforeMonth_succ y h1
  have h5 : daysBeforeMonth y (m + 1) = sumDim y m := by
    simp [daysBeforeMonth]
  have h6 := sumDim_le_sumDim y h2
  omega

theorem toOrdinal_lt_of_year_lt {d1 d2 : Date} (hv1 : d1.Valid) (hv2 : d2.Valid)
    (h : d1.year < d2.year) : d1.toOrdinal < d2.toOrdinal := by
  obtain ⟨y1, m1, dd1⟩ := d1
  obtain ⟨y2, m2, dd2⟩ := d2
  obtain ⟨a1, a2, a3, a4, a5, a6⟩ := hv1
  obtain ⟨b1, b2, b3, b4, b5, b6⟩ := hv2
  simp only at h a1 a2 a3 a4 a5 a6 b1 b2 b3 b4 b5 b6
  have h1 : daysBeforeMonth y1 m1 + dd1 ≤ sumDim y1 12 := dbm_day_le a3 a4 a6
  have h2 := daysBeforeYear_succ a1
  have h25 := sumDim_twelve y1
  have h3 : daysBeforeYear (y1 + 1) ≤ daysBeforeYear y2 :=
    daysBeforeYear_mono (by omega)
  show daysBeforeYear y1 + daysBeforeMonth y1 m1 + dd1 <
    daysBeforeYear y2 + daysBeforeMonth y2 m2 + dd2
  cases hL : isLeap y1 <;> rw [hL] at h2 h25 <;> simp at h2 h25 <;> omega

theorem toOrdinal_lt_of_month_lt {d1 d2 : Date} (hv1 : d1.Valid) (hv2 : d2.Valid)
    (hy : d1.year = d2.year) (h : d1.month < d2.month) :
    d1.toOrdinal < d2.toOrdinal := by
  obtain ⟨y1, m1, dd1⟩ := d1
  obtain ⟨y2, m2, dd2⟩ := d2
  obtain ⟨a1, a2, a3, a4, a5, a6⟩ := hv1
  obtain ⟨b1, b2, b3, b4, b5, b6⟩ := hv2
  simp only at hy h a1 a2 a3 a4 a5 a6 b1 b2 b3 b4 b5 b6
  subst hy
  have h4 := daysBeforeMonth_succ y1 a3
  have h5 : daysBeforeMonth y1 (m1 + 1) = sumDim y1 m1 := by
    simp [daysBeforeMonth]
  have h6 : sumDim y1 m1 ≤ sumDim y1 (m2 - 1) := sumDim_le_sumDim _ (by omega)
  have h7 : daysBeforeMonth y1 m2 = sumDim y1 (m2 - 1) := rfl
  show daysBeforeYear y1 + daysBeforeMonth y1 m1 + dd1 <
    daysBeforeYear y1 + daysBeforeMonth y1 m2 + dd2
  omega

theorem toOrdinal_lt_of_lex {d1 d2 : Date} (hv1 : d1.Valid) (hv2 : d2.Valid)
    (h : d1.year < d2.year ∨ (d1.year = d2.year ∧ (d1.month < d2.month ∨
      (d1.month = d2.month ∧ d1.day < d2.day)))) :
    d1.toOrdinal < d2.toOrdinal := by
  rcases h with h | ⟨hy, h | ⟨hm, hd⟩⟩
  · exact toOrdinal_lt_of_year_lt hv1 hv2 h
  · exact toOrdinal_lt_of_month_lt hv1 hv2 hy h
  · have h7 : daysBeforeMonth d1.year d1.month = daysBeforeMonth d2.year d2.month := by
      rw [hy, hm]
    unfold Date.toOrdinal
    rw [hy, hm]
    omega

theorem dateLe_true_imp {d1 d2 : Date} (h : dateLe d1 d2 = true) :
    d1.year < d2.year ∨ (d1.year = d2.year ∧ (d1.month < d2.month ∨
      (d1.month = d2.month ∧ d1.day ≤ d2.day))) := by
  unfold dateLe lexStep at h
  split_ifs at h <;> simp_all

theorem dateLe_false_imp {d1 d2 : Date} (h : dateLe d1 d2 = false) :
    d2.year < d1.year ∨ (d2.year = d1.year ∧ (d2.month < d1.month ∨
      (d2.month = d1.month ∧ d2.day < d1.day))) := by
  unfold dateLe lexStep at h
  split_ifs at h <;> simp_all <;> omega

theorem dateLe_iff_toOrdinal {d1 d2 : Date} (hv1 : d1.Valid) (hv2 : d2.Valid) :
    dateLe d1 d2 = true ↔ d1.toOrdinal ≤ d2.toOrdinal := by
  constructor
  · intro h
    rcases dateLe_true_imp h with h' | ⟨hy, h' | ⟨hm, hd⟩⟩
    · exact Nat.le_of_lt (toOrdinal_lt_of_year_lt hv1 hv2 h')
    · exact Nat.le_of_lt (toOrdinal_lt_of_month_lt hv1 hv2 hy h')
    · have h7 : daysBeforeMonth d1.year d1.month = daysBeforeMonth d2.year d2.month := by
        rw [hy, hm]
      unfold Date.toOrdinal
      rw [hy, hm]
      omega
  · intro h
    cases hb : dateLe d1 d2 with
    | true => rfl
    | false =>
      have h' := toOrdinal_lt_of_lex hv2 hv1 (by
        rcases dateLe_false_imp hb with h' | ⟨hy, h'⟩
        · exact Or.inl h'
        · exact Or.inr ⟨hy, h'⟩)
      omega

theorem toOrdinal_inj {d1 d2 : Date} (hv1 : d1.Valid) (hv2 : d2.Valid)
    (h : d1.toOrdinal = d2.toOrdinal) : d1 = d2 := by
  have ey : d1.year = d2.year := by
    rcases Nat.lt_trichotomy d1.year d2.year with h' | h' | h'
    · exact absurd (toOrdinal_lt_of_year_lt hv1 hv2 h') (by omega)
    · exact h'
    · exact absurd (toOrdinal_lt_of_year_lt hv2 hv1 h') (by omega)
  have em : d1.month = d2.month := by
    rcases Nat.lt_trichotomy d1.month d2.month with h' | h' | h'
    · exact absurd (toOrdinal_lt_of_month_lt hv1 hv2 ey h') (by omega)
    · exact h'
    · exact absurd (toOrdinal_lt_of_month_lt hv2 hv1 ey.symm h') (by omega)
  have ed : d1.day = d2.day := by
    unfold Date.toOrdinal at h
    rw [ey, em] at h
    omega
  obtain ⟨y1, m1, dd1⟩ := d1
  obtain ⟨y2, m2, dd2⟩ := d2
  simp_all

theorem predDate_spec {d : Date} (hv : d.Valid) (h2 : 2 ≤ d.toOrdinal) :
    (predDate d).Valid ∧ (predDate d).toOrdinal + 1 = d.toOrdinal := by
  obtain ⟨y, m, dd⟩ := d
  obtain ⟨a1, a2, a3, a4, a5, a6⟩ := hv
  simp only at a1 a2 a3 a4 a5 a6
  have hord : Date.toOrdinal ⟨y, m, dd⟩ =
      daysBeforeYear y + daysBeforeMonth y m + dd := rfl
  by_cases hd : 2 ≤ dd
  · have hp : predDate ⟨y, m, dd⟩ = ⟨y, m, dd - 1⟩ := by
      simp [predDate, hd]
    rw [hp, hord]
    refine ⟨⟨a1, a2, a3, a4, ?_, ?_⟩, ?_⟩
    · show 1 ≤ dd - 1
      omega
    · show dd - 1 ≤ daysInMonth y m
      omega
    · show daysBeforeYear y + daysBeforeMonth y m + (dd - 1) + 1 = _
      omega
  · have hd1 : dd = 1 := by omega
    by_cases hm : 2 ≤ m
    · have hp : predDate ⟨y, m, dd⟩ = ⟨y, m - 1, daysInMonth y (m - 1)⟩ := by
        simp [predDate, hd, hm]
      have hm1 : 1 ≤ m - 1 := by omega
      have hsucc := daysBeforeMonth_succ y hm1
      rw [show m - 1 + 1 = m from by omega] at hsucc
      rw [hp, hord]
      refine ⟨⟨a1, a2, hm1, ?_, one_le_daysInMonth _ _, Nat.le_refl _⟩, ?_⟩
      · show m - 1 ≤ 12
        omega
      · show daysBeforeYear y + daysBeforeMonth y (m - 1) + daysInMonth y (m - 1) + 1 = _
        omega
    · have hm1 : m = 1 := by omega
      have hp : predDate ⟨y, m, dd⟩ = ⟨y - 1, 12, 31⟩ := by
        simp [predDate, hd, hm]
      have hy2 : 2 ≤ y := by
        by_contra hc
        have hyy : y = 1 := by omega
        rw [hord, hyy, hm1] at h2
        have e1 : daysBeforeYear 1 = 0 := by decide
        have e2 : daysBeforeMonth 1 1 = 0 := rfl
        omega
      have hs12 := sumDim_twelve (y - 1)
      have hs11 : sumDim (y - 1) 12 = sumDim (y - 1) 11 + 31 := rfl
      have hb := daysBeforeYear_succ (y := y - 1) (by omega)
      rw [show y - 1 + 1 = y from by omega] at hb
      rw [hp, hord]
      refine ⟨⟨?_, ?_, ?_, ?_, ?_, ?_⟩, ?_⟩
      · show 1 ≤ y - 1
        omega
      · show y - 1 ≤ 9999
        omega
      · show (1 : Nat) ≤ 12
        omega
      · show (12 : Nat) ≤ 12
        omega
      · show (1 : Nat) ≤ 31
        omega
      · show (31 : Nat) ≤ daysInMonth (y - 1) 12
        simp [daysInMonth]
      · show daysBeforeYear (y - 1) + daysBeforeMonth (y - 1) 12 + 31 + 1 = _
        have hdbm12 : daysBeforeMonth (y - 1) 12 = sumDim (y - 1) 11 := rfl
        have hdbm1 : daysBeforeMonth y 1 = 0 := rfl
        rw [hm1, hd1]
        cases hL : isLeap (y - 1) <;> rw [hL] at hs12 hb <;> simp at hs12 hb <;> omega

theorem subDays_spec {d : Date} (hv : d.Valid) {k : Nat}
    (h : k + 1 ≤ d.toOrdinal) :
    (subDays d k).Valid ∧ (subDays d k).toOrdinal + k = d.toOrdinal := by
  induction k with
  | zero => exact ⟨hv, rfl⟩
  | succ n ih =>
    obtain ⟨hv', ho⟩ := ih (by omega)
    obtain ⟨hv'', ho'⟩ := predDate_spec hv' (by omega)
    refine ⟨hv'', ?_⟩
    show (predDate (subDays d n)).toOrdinal + (n + 1) = d.toOrdinal
    omega

/-! ## Helper lemmas: formatting and parsing round trips -/

theorem digit?_digitChar {k : Nat} (h : k ≤ 9) : digit? (digitChar k) = some k := by
  interval_cases k <;> decide

theorem expectChar_cons (c : Char) (rest : List Char) :
    expectChar c (c :: rest) = some rest := by
  simp [expectChar]

theorem readYear4_pad4 {n : Nat} (h : n ≤ 9999) (rest : List Char) :
    readYear4 (pad4 n ++ rest) = some (n, rest) := by
  have e1 := digit?_digitChar (k := n / 1000 % 10) (by omega)
  have e2 := digit?_digitChar (k := n / 100 % 10) (by omega)
  have e3 := digit?_digitChar (k := n / 10 % 10) (by omega)
  have e4 := digit?_digitChar (k := n % 10) (by omega)
  simp only [pad4, List.cons_append, List.nil_append, readYear4, e1, e2, e3, e4]
  simp only [Option.some.injEq, Prod.mk.injEq, and_true]
  omega

theorem readMonth_pad2 {m : Nat} (h1 : 1 ≤ m) (h2 : m ≤ 12) (rest : List Char) :
    readMonth (pad2 m ++ rest) = some (m, rest) := by
  have e1 := digit?_digitChar (k := m / 10 % 10) (by omega)
  have e2 := digit?_digitChar (k := m % 10) (by omega)
  have hv : 10 * (m / 10 % 10) + m % 10 = m := by omega
  simp only [pad2, List.cons_append, List.nil_append, readMonth, e1, e2]
  split_ifs <;>
    first
      | (simp only [Option.some.injEq, Prod.mk.injEq, and_true]; omega)
      | (exfalso; omega)

theorem readDay_pad2 {d : Nat} (h1 : 1 ≤ d) (h2 : d ≤ 31) (rest : List Char) :
    readDay (pad2 d ++ rest) = some (d, rest) := by
  have e1 := digit?_digitChar (k := d / 10 % 10) (by omega)
  have e2 := digit?_digitChar (k := d % 10) (by omega)
  have hv : 10 * (d / 10 % 10) + d % 10 = d := by omega
  simp only [pad2, List.cons_append, List.nil_append, readDay, e1, e2]
  split_ifs <;>
    first
      | (simp only [Option.some.injEq, Prod.mk.injEq, and_true]; omega)
      | (exfalso; omega)

theorem readHour_pad2 {h : Nat} (h2 : h ≤ 23) (rest : List Char) :
    readHour (pad2 h ++ rest) = some (h, rest) := by
  have e1 := digit?_digitChar (k := h / 10 % 10) (by omega)
  have e2 := digit?_digitChar (k := h % 10) (by omega)
  have hv : 10 * (h / 10 % 10) + h % 10 = h := by omega
  simp only [pad2, List.cons_append, List.nil_append, readHour, e1, e2]
  split_ifs <;> simp only [Option.some.injEq, Prod.mk.injEq, and_true] <;> omega

theorem readMinute_pad2 {m : Nat} (h2 : m ≤ 59) (rest : List Char) :
    readMinute (pad2 m ++ rest) = some (m, rest) := by
  have e1 := digit?_digitChar (k := m / 10 % 10) (by omega)
  have e2 := digit?_digitChar (k := m % 10) (by omega)
  have hv : 10 * (m / 10 % 10) + m % 10 = m := by omega
  simp only [pad2, List.cons_append, List.nil_append, readMinute, e1, e2]
  split_ifs <;> simp only [Option.some.injEq, Prod.mk.injEq, and_true] <;> omega

theorem readSecond_pad2 {s : Nat} (h2 : s ≤ 59) (rest : List Char) :
    readSecond (pad2 s ++ rest) = some (s, rest) := by
  have e1 := digit?_digitChar (k := s / 10 % 10) (by omega)
  have e2 := digit?_digitChar (k := s % 10) (by omega)
  have hv : 10 * (s / 10 % 10) + s % 10 = s := by omega
  simp only [pad2, List.cons_append, List.nil_append, readSecond, e1, e2]
  split_ifs <;> simp only [Option.some.injEq, Prod.mk.injEq, and_true] <;> omega

theorem mkDate_some {y m d : Nat} {dd : Date} (h : mkDate y m d = some dd) :
    dd.Valid ∧ dd = ⟨y, m, d⟩ := by
  unfold mkDate at h
  split_ifs at h with hc
  simp only [Option.some.injEq] at h
  subst h
  exact ⟨hc, rfl⟩

theorem mkDate_of_valid {d : Date} (hv : d.Valid) :
    mkDate d.year d.month d.day = some d := by
  obtain ⟨y, m, dd⟩ := d
  have hv' : 1 ≤ y ∧ y ≤ 9999 ∧ 1 ≤ m ∧ m ≤ 12 ∧ 1 ≤ dd ∧ dd ≤ daysInMonth y m := hv
  show (if 1 ≤ y ∧ y ≤ 9999 ∧ 1 ≤ m ∧ m ≤ 12 ∧ 1 ≤ dd ∧ dd ≤ daysInMonth y m then
    some (⟨y, m, dd⟩ : Date) else none) = some ⟨y, m, dd⟩
  rw [if_pos hv']

theorem mkDateTime_some {y mo d h mi s : Nat} {t : DateTime}
    (ht : mkDateTime y mo d h mi s = some t) :
    t.Valid ∧ t = ⟨⟨y, mo, d⟩, h, mi, s⟩ := by
  unfold mkDateTime at ht
  cases hd : mkDate y mo d with
  | none => rw [hd] at ht; simp at ht
  | some dd =>
    rw [hd] at ht
    obtain ⟨hdv, rfl⟩ := mkDate_some hd
    split_ifs at ht with hc
    simp only [Option.some.injEq] at ht
    subst ht
    exact ⟨⟨hdv, hc⟩, rfl⟩

theorem mkDateTime_of_valid {t : DateTime} (hv : t.Valid) :
    mkDateTime t.date.year t.date.month t.date.day t.hour t.minute t.second = some t := by
  obtain ⟨hd, h1, h2, h3⟩ := hv
  unfold mkDateTime
  rw [mkDate_of_valid hd]
  show (if t.hour ≤ 23 ∧ t.minute ≤ 59 ∧ t.second ≤ 59 then
    some (⟨t.date, t.hour, t.minute, t.second⟩ : DateTime) else none) = some t
  rw [if_pos ⟨h1, h2, h3⟩]

theorem parseDateChars_format {d : Date} (hv : d.Valid) :
    parseDateChars (pad4 d.year ++ '-' :: pad2 d.month ++ '-' :: pad2 d.day) = some d := by
  obtain ⟨y, m, dd⟩ := d
  obtain ⟨a1, a2, a3, a4, a5, a6⟩ := hv
  simp only at a1 a2 a3 a4 a5 a6
  have h31 : dd ≤ 31 := Nat.le_trans a6 (daysInMonth_le_31 y m)
  have e0 : pad4 y ++ '-' :: pad2 m ++ '-' :: pad2 dd
      = pad4 y ++ ('-' :: (pad2 m ++ ('-' :: pad2 dd))) := by simp
  have t3 : readDay (pad2 dd) = some (dd, []) := by
    have := readDay_pad2 a5 h31 ([] : List Char)
    simpa using this
  rw [e0]
  simp only [parseDateChars, readYear4_pad4 a2, Option.bind_eq_bind, Option.some_bind,
    expectChar_cons, readMonth_pad2 a3 a4, t3]
  exact mkDate_of_valid (d := ⟨y, m, dd⟩) ⟨a1, a2, a3, a4, a5, a6⟩

theorem parse_last_activity_format {d : Date} (hv : d.Valid) :
    parse_last_activity (some (formatDate d)) = some d := by
  have e : (formatDate d).data = pad4 d.year ++ '-' :: pad2 d.month ++ '-' :: pad2 d.day := rfl
  show (if (formatDate d).data = [] then none else parseDateChars (formatDate d).data) = some d
  rw [e]
  rw [if_neg (by simp [pad4])]
  exact parseDateChars_format hv

theorem readDateTime6_format {t : DateTime} (hv : t.Valid) (rest : List Char) :
    readDateTime6 (pad4 t.date.year ++ '-' :: pad2 t.date.month ++ '-' :: pad2 t.date.day ++
      'T' :: pad2 t.hour ++ ':' :: pad2 t.minute ++ ':' :: pad2 t.second ++ rest) =
    some ((t.date.year, t.date.month, t.date.day, t.hour, t.minute, t.second), rest) := by
  obtain ⟨⟨y, mo, dd⟩, h, mi, s⟩ := t
  obtain ⟨⟨a1, a2, a3, a4, a5, a6⟩, b1, b2, b3⟩ := hv
  simp only at a1 a2 a3 a4 a5 a6 b1 b2 b3 ⊢
  have h31 : dd ≤ 31 := Nat.le_trans a6 (daysInMonth_le_31 y mo)
  have e0 : pad4 y ++ '-' :: pad2 mo ++ '-' :: pad2 dd ++ 'T' :: pad2 h ++ ':' :: pad2 mi ++
      ':' :: pad2 s ++ rest
      = pad4 y ++ ('-' :: (pad2 mo ++ ('-' :: (pad2 dd ++ ('T' :: (pad2 h ++
        (':' :: (pad2 mi ++ (':' :: (pad2 s ++ rest)))))))))) := by simp
  rw [e0]
  simp only [readDateTime6, readYear4_pad4 a2, Option.bind_eq_bind, Option.some_bind,
    expectChar_cons, readMonth_pad2 a3 a4, readDay_pad2 a5 h31, readHour_pad2 b1,
    readMinute_pad2 b2, readSecond_pad2 b3]

theorem parseDateTimeChars_format {t : DateTime} (hv : t.Valid) :
    parseDateTimeChars (formatDateTime t).data = some t := by
  have e0 : (formatDateTime t).data
      = pad4 t.date.year ++ '-' :: pad2 t.date.month ++ '-' :: pad2 t.date.day ++
        'T' :: pad2 t.hour ++ ':' :: pad2 t.minute ++ ':' :: pad2 t.second ++ ['Z'] := rfl
  rw [e0]
  simp only [parseDateTimeChars, readDateTime6_format hv ['Z'], Option.bind_eq_bind,
    Option.some_bind, expectChar_cons]
  exact mkDateTime_of_valid hv

/-! ## Helper lemmas: parser validity, sort keys, streamlit parsing -/

theorem parseDateChars_some_valid {cs : List Char} {d : Date}
    (h : parseDateChars cs = some d) : d.Valid := by
  unfold parseDateChars at h
  simp only [Option.bind_eq_bind, Option.bind_eq_some] at h
  obtain ⟨⟨y, r1⟩, _, h⟩ := h
  obtain ⟨r2, _, h⟩ := h
  obtain ⟨⟨m, r3⟩, _, h⟩ := h
  obtain ⟨r4, _, h⟩ := h
  obtain ⟨⟨dd, r5⟩, _, h⟩ := h
  split_ifs at h
  exact (mkDate_some h).1

theorem parse_last_activity_some_valid {raw : Option String} {d : Date}
    (h : parse_last_activity raw = some d) : d.Valid := by
  cases raw with
  | none => simp [parse_last_activity] at h
  | some s =>
    simp only [parse_last_activity] at h
    split_ifs at h
    exact parseDateChars_some_valid h

theorem parseDateTimeChars_some_valid {cs : List Char} {t : DateTime}
    (h : parseDateTimeChars cs = some t) : t.Valid := by
  unfold parseDateTimeChars at h
  simp only [Option.bind_eq_bind, Option.bind_eq_some] at h
  obtain ⟨⟨f, r⟩, _, h⟩ := h
  obtain ⟨r2, _, h⟩ := h
  split_ifs at h
  exact (mkDateTime_some h).1

theorem parse_dt_none : _parse_dt none = dtMin := rfl

theorem parse_dt_unparsable {s : String} (h : parseDateTimeChars s.data = none) :
    _parse_dt (some s) = dtMin := by
  show (if s.data = [] then dtMin else (parseDateTimeChars s.data).getD dtMin) = dtMin
  split_ifs
  · rfl
  · rw [h]; rfl

theorem dtMin_le_parse_dt (s : Option String) : dtLe dtMin (_parse_dt s) = true := by
  cases s with
  | none => exact dtLe_refl dtMin
  | some s =>
    show dtLe dtMin (if s.data = [] then dtMin
      else (parseDateTimeChars s.data).getD dtMin) = true
    split_ifs
    · exact dtLe_refl dtMin
    · cases hp : parseDateTimeChars s.data with
      | none => exact dtLe_refl dtMin
      | some t =>
        rw [Option.getD_some]
        obtain ⟨⟨v1, _, v3, _, v5, _⟩, _⟩ := parseDateTimeChars_some_valid hp
        exact dtMin_le v1 v3 v5

theorem factLe_trans {a b c : FactEntry} (h1 : factLe a b = true)
    (h2 : factLe b c = true) : factLe a c = true :=
  dtLe_trans h2 h1

theorem factLe_total (a b : FactEntry) : (factLe a b || factLe b a) = true :=
  dtLe_total (_parse_dt b.learned_at) (_parse_dt a.learned_at)

theorem compute_new_streak_pos (c l : Option Int) (raw : Option String)
    (today : Date) (h : 0 ≤ pyOrInt c 0) :
    1 ≤ (compute_new_streak c l raw today).1 := by
  cases hp : parse_last_activity raw with
  | none => simp [compute_new_streak, hp]
  | some la =>
    simp only [compute_new_streak, hp]
    split_ifs <;> omega

theorem digitChar_beq_Z {k : Nat} (h : k ≤ 9) : (digitChar k == 'Z') = false := by
  interval_cases k <;> decide

theorem dot_beq_digitChar_mod (n : Nat) :
    (('.' : Char) == digitChar (n % 10)) = false := by
  have h : n % 10 ≤ 9 := by omega
  interval_cases hk : (n % 10) <;> decide

theorem dot_ne_digitChar_mod (n : Nat) : ('.' : Char) ≠ digitChar (n % 10) := by
  have h : n % 10 ≤ 9 := by omega
  interval_cases hk : (n % 10) <;> decide

theorem rstripZ_append_Z (cs : List Char) : rstripZ (cs ++ ['Z']) = rstripZ cs := by
  simp [rstripZ, List.reverse_append, List.dropWhile_cons]

theorem rstripZ_last_digit (cs : List Char) {k : Nat} (h : k ≤ 9) :
    rstripZ (cs ++ [digitChar k]) = cs ++ [digitChar k] := by
  simp [rstripZ, List.reverse_append, List.dropWhile_cons, digitChar_beq_Z h]

/-- The canonical second-precision body `%Y-%m-%dT%H:%M:%S` of a datetime. -/
def dtBody (t : DateTime) : List Char :=
  pad4 t.date.year ++ '-' :: pad2 t.date.month ++ '-' :: pad2 t.date.day ++
    'T' :: pad2 t.hour ++ ':' :: pad2 t.minute ++ ':' :: pad2 t.second

theorem rstripZ_dtBody (t : DateTime) : rstripZ (dtBody t) = dtBody t := by
  have e : dtBody t = (pad4 t.date.year ++ '-' :: pad2 t.date.month ++
      '-' :: pad2 t.date.day ++ 'T' :: pad2 t.hour ++ ':' :: pad2 t.minute ++
      [':', digitChar (t.second / 10 % 10)]) ++ [digitChar (t.second % 10)] := by
    simp [dtBody, pad2]
  rw [e, rstripZ_last_digit _ (by omega)]

theorem dtBody_not_contains_dot (t : DateTime) : (dtBody t).contains '.' = false := by
  have c1 : (('.' : Char) == '-') = false := by decide
  have c2 : (('.' : Char) == 'T') = false := by decide
  have c3 : (('.' : Char) == ':') = false := by decide
  simp [dtBody, pad4, pad2, List.contains_eq_any_beq, List.any_append, List.any_cons,
    dot_beq_digitChar_mod, c1, c2, c3, dot_ne_digitChar_mod]

theorem readDateTime6_dtBody {t : DateTime} (hv : t.Valid) (rest : List Char) :
    readDateTime6 (dtBody t ++ rest) =
      some ((t.date.year, t.date.month, t.date.day, t.hour, t.minute, t.second), rest) := by
  have e : dtBody t ++ rest = pad4 t.date.year ++ '-' :: pad2 t.date.month ++
      '-' :: pad2 t.date.day ++ 'T' :: pad2 t.hour ++ ':' :: pad2 t.minute ++
      ':' :: pad2 t.second ++ rest := by
    simp [dtBody]
  rw [e]
  exact readDateTime6_format hv rest

theorem parseDateTimeNoZ_dtBody {t : DateTime} (hv : t.Valid) :
    parseDateTimeNoZ (dtBody t) = some t := by
  have h6 : readDateTime6 (dtBody t) =
      some ((t.date.year, t.date.month, t.date.day, t.hour, t.minute, t.second), []) := by
    have := readDateTime6_dtBody hv []
    simpa using this
  simp only [parseDateTimeNoZ, h6, Option.bind_eq_bind, Option.some_bind]
  exact mkDateTime_of_valid hv

theorem show_recent_parse_canonical {t : DateTime} (hv : t.Valid) :
    show_recent_parse (formatDateTime t) = some t := by
  have e : (formatDateTime t).data = dtBody t ++ ['Z'] := by simp [formatDateTime, dtBody]
  show (let u := rstripZ (formatDateTime t).data
    if u.contains '.' then parseDateTimeFrac u else parseDateTimeNoZ u) = some t
  rw [e, rstripZ_append_Z, rstripZ_dtBody]
  simp only [dtBody_not_contains_dot, Bool.false_eq_true, if_false]
  exact parseDateTimeNoZ_dtBody hv

theorem show_recent_parse_micro {t : DateTime} (u : Nat) (hv : t.Valid) :
    show_recent_parse (formatDateTimeMicro t u) = some t := by
  have e : (formatDateTimeMicro t u).data = (dtBody t ++ '.' ::
      [digitChar (u / 100000 % 10), digitChar (u / 10000 % 10), digitChar (u / 1000 % 10),
       digitChar (u / 100 % 10), digitChar (u / 10 % 10)]) ++
      [digitChar (u % 10)] ++ ['Z'] := by
    simp [formatDateTimeMicro, dtBody]
  have estrip : rstripZ (formatDateTimeMicro t u).data = dtBody t ++ '.' ::
      [digitChar (u / 100000 % 10), digitChar (u / 10000 % 10), digitChar (u / 1000 % 10),
       digitChar (u / 100 % 10), digitChar (u / 10 % 10), digitChar (u % 10)] := by
    rw [e, rstripZ_append_Z, rstripZ_last_digit _ (show u % 10 ≤ 9 by omega)]
    simp
  have hcon : (dtBody t ++ '.' ::
      [digitChar (u / 100000 % 10), digitChar (u / 10000 % 10), digitChar (u / 1000 % 10),
       digitChar (u / 100 % 10), digitChar (u / 10 % 10), digitChar (u % 10)]).contains '.'
      = true := by
    simp [List.contains_eq_any_beq, List.any_append, List.any_cons]
  have h6 : readDateTime6 (dtBody t ++ '.' ::
      [digitChar (u / 100000 % 10), digitChar (u / 10000 % 10), digitChar (u / 1000 % 10),
       digitChar (u / 100 % 10), digitChar (u / 10 % 10), digitChar (u % 10)]) =
      some ((t.date.year, t.date.month, t.date.day, t.hour, t.minute, t.second), '.' ::
      [digitChar (u / 100000 % 10), digitChar (u / 10000 % 10), digitChar (u / 1000 % 10),
       digitChar (u / 100 % 10), digitChar (u / 10 % 10), digitChar (u % 10)]) :=
    readDateTime6_dtBody hv _
  have e1 := digit?_digitChar (k := u / 100000 % 10) (by omega)
  have e2 := digit?_digitChar (k := u / 10000 % 10) (by omega)
  have e3 := digit?_digitChar (k := u / 1000 % 10) (by omega)
  have e4 := digit?_digitChar (k := u / 100 % 10) (by omega)
  have e5 := digit?_digitChar (k := u / 10 % 10) (by omega)
  have e6 := digit?_digitChar (k := u % 10) (by omega)
  show (let w := rstripZ (formatDateTimeMicro t u).data
    if w.contains '.' then parseDateTimeFrac w else parseDateTimeNoZ w) = some t
  rw [estrip]
  simp only [hcon, if_true]
  simp only [parseDateTimeFrac, h6, Option.bind_eq_bind, Option.some_bind,
    expectChar_cons, readFrac, takeDigits, e1, e2, e3, e4, e5, e6]
  exact mkDateTime_of_valid hv


/-! ## Helper lemmas: streak engine and router inversions -/

theorem pyOrInt_some_zero (x : Int) : pyOrInt (some x) 0 = x := by
  show (if x = 0 then (0 : Int) else x) = x
  split_ifs with h
  · omega
  · rfl

theorem yesterday_iff {d today : Date} (hvd : d.Valid) (hvt : today.Valid)
    (h2 : 2 ≤ today.toOrdinal) :
    d = predDate today ↔ d.toOrdinal + 1 = today.toOrdinal := by
  obtain ⟨hpv, hpo⟩ := predDate_spec hvt h2
  constructor
  · rintro rfl; omega
  · intro h; exact toOrdinal_inj hvd hpv (by omega)

theorem compute_new_streak_same_day (c l : Option Int) (today : Date)
    (hvt : today.Valid) (hpos : pyOrInt c 0 ≠ 0) :
    (compute_new_streak c l (some (formatDate today)) today).1 = pyOrInt c 0 := by
  simp only [compute_new_streak, parse_last_activity_format hvt]
  rw [if_pos (dates_equal_iff.mpr rfl), if_neg hpos]

theorem add_fact_ok_fields {row : UserRow} {p : FactCreate} {now : DateTime}
    {today : Date} {row' : UserRow} (h : add_fact row p now today = .ok row') :
    row'.total_facts_count = some (pyOrInt row.total_facts_count 0 + 1) ∧
    row'.current_streak = some ((compute_new_streak row.current_streak
      row.longest_streak row.last_activity_date today).1) ∧
    row'.longest_streak = some ((compute_new_streak row.current_streak
      row.longest_streak row.last_activity_date today).2.1) ∧
    row'.last_activity_date = some (formatDate today) ∧
    row'.facts = row.facts ++
      [{ content := some p.content, category := p.category,
         source_url := p.source_url, learned_at := some (formatDateTime now) }] := by
  unfold add_fact at h
  cases hv : validate_fact_create p with
  | error e => rw [hv] at h; cases h
  | ok u =>
    rw [hv] at h
    simp only [Except.ok.injEq] at h
    subst h
    exact ⟨rfl, rfl, rfl, rfl, rfl⟩

/-! ## Claims -/

/-- C1: `compute_new_streak` implements the specified streak algorithm: absent
last activity yields 1; last activity equal to today yields `max(current, 1)`;
exactly one day before today yields `current + 1`; any other stored date (a gap
of two or more days, or a future date) yields 1; and the result always carries
`new_longest = max(longest, new_current)` and `new_last_activity_date = today`
(as the formatted `%Y-%m-%d` string the code stores). Prior streak values are
non-negative per the data model. -/
theorem claim_C1 (c l : Option Int) (raw : Option String) (today : Date)
    (hvt : today.Valid) (h2 : 2 ≤ today.toOrdinal) (hc : 0 ≤ pyOrInt c 0) :
    (parse_last_activity raw = none → (compute_new_streak c l raw today).1 = 1) ∧
    (∀ d, parse_last_activity raw = some d →
      ((d = today → (compute_new_streak c l raw today).1 = max (pyOrInt c 0) 1) ∧
       (d.toOrdinal + 1 = today.toOrdinal →
         (compute_new_streak c l raw today).1 = pyOrInt c 0 + 1) ∧
       (d ≠ today → d.toOrdinal + 1 ≠ today.toOrdinal →
         (compute_new_streak c l raw today).1 = 1))) ∧
    (compute_new_streak c l raw today).2.1 =
      max (pyOrInt l 0) (compute_new_streak c l raw today).1 ∧
    (compute_new_streak c l raw today).2.2 = formatDate today := by
  refine ⟨?_, ?_, rfl, rfl⟩
  · intro h
    simp only [compute_new_streak, h]
  · intro d hd
    have hdv : d.Valid := parse_last_activity_some_valid hd
    obtain ⟨hpv, hpo⟩ := predDate_spec hvt h2
    refine ⟨?_, ?_, ?_⟩
    · rintro rfl
      simp only [compute_new_streak, hd]
      rw [if_pos (dates_equal_iff.mpr rfl)]
      by_cases hc0 : pyOrInt c 0 = 0
      · simp [hc0]
      · rw [if_neg hc0, max_eq_left (by omega)]
    · intro hord
      simp only [compute_new_streak, hd]
      have hneq : dates_equal d today = false := by
        cases he : dates_equal d today
        · rfl
        · exact absurd (congrArg Date.toOrdinal (dates_equal_iff.mp he)) (by omega)
      have heq2 : dates_equal d (predDate today) = true :=
        dates_equal_iff.mpr (toOrdinal_inj hdv hpv (by omega))
      rw [hneq, heq2]
      simp
    · intro hne hnord
      simp only [compute_new_streak, hd]
      have hneq : dates_equal d today = false := by
        cases he : dates_equal d today
        · rfl
        · exact absurd (dates_equal_iff.mp he) hne
      have hneq2 : dates_equal d (predDate today) = false := by
        cases he : dates_equal d (predDate today)
        · rfl
        · exact absurd (by rw [dates_equal_iff.mp he]; omega) hnord
      rw [hneq, hneq2]
      simp

/-- Witness for C1 at a concrete input: last activity one day before today. -/
theorem claim_C1_witness :
    (compute_new_streak (some 3) (some 5) (some "2024-01-02") ⟨2024, 1, 3⟩).1 =
      pyOrInt (some 3) 0 + 1 := by
  have h := claim_C1 (some 3) (some 5) (some "2024-01-02") ⟨2024, 1, 3⟩
    (by decide) (by decide) (by decide)
  exact (h.2.1 ⟨2024, 1, 2⟩ (by decide)).2.1 (by decide)

/-- C2: `compute_new_streak` always yields `new_current ≥ 1` and
`new_longest ≥ new_current` (prior streaks being non-negative per the data
model), and every successful fact-append stores a row satisfying
`longest_streak ≥ current_streak ≥ 1`. -/
theorem claim_C2 :
    (∀ (c l : Option Int) (raw : Option String) (today : Date),
      0 ≤ pyOrInt c 0 →
      1 ≤ (compute_new_streak c l raw today).1 ∧
      (compute_new_streak c l raw today).1 ≤ (compute_new_streak c l raw today).2.1) ∧
    (∀ (row : UserRow) (payload : FactCreate) (now : DateTime) (today : Date)
      (row' : UserRow), 0 ≤ pyOrInt row.current_streak 0 →
      add_fact row payload now today = .ok row' →
      ∃ nc nl : Int, row'.current_streak = some nc ∧ row'.longest_streak = some nl ∧
        1 ≤ nc ∧ nc ≤ nl) := by
  constructor
  · intro c l raw today hc
    refine ⟨compute_new_streak_pos c l raw today hc, ?_⟩
    exact le_max_right _ _
  · intro row payload now today row' hc hok
    obtain ⟨_, hcur, hlong, _, _⟩ := add_fact_ok_fields hok
    exact ⟨_, _, hcur, hlong, compute_new_streak_pos _ _ _ _ hc, le_max_right _ _⟩

/-- Witness for C2 at a concrete input. -/
theorem claim_C2_witness :
    (1 ≤ (compute_new_streak (some 3) (some 5) (some "2024-01-02") ⟨2024, 1, 3⟩).1 ∧
      (compute_new_streak (some 3) (some 5) (some "2024-01-02") ⟨2024, 1, 3⟩).1 ≤
      (compute_new_streak (some 3) (some 5) (some "2024-01-02") ⟨2024, 1, 3⟩).2.1) ∧
    (∃ nc nl : Int,
      (⟨"alice", [⟨some "water helps", some "diet", none, some "2024-01-03T10:00:00Z"⟩],
        some 1, some 1, some 1, some "2024-01-03"⟩ : UserRow).current_streak = some nc ∧
      (⟨"alice", [⟨some "water helps", some "diet", none, some "2024-01-03T10:00:00Z"⟩],
        some 1, some 1, some 1, some "2024-01-03"⟩ : UserRow).longest_streak = some nl ∧
      1 ≤ nc ∧ nc ≤ nl) :=
  ⟨claim_C2.1 (some 3) (some 5) (some "2024-01-02") ⟨2024, 1, 3⟩ (by decide),
   claim_C2.2 ⟨"alice", [], some 0, some 0, some 0, none⟩
     ⟨"water helps", some "diet", none⟩ ⟨⟨2024, 1, 3⟩, 10, 0, 0⟩ ⟨2024, 1, 3⟩
     ⟨"alice", [⟨some "water helps", some "diet", none, some "2024-01-03T10:00:00Z"⟩],
       some 1, some 1, some 1, some "2024-01-03"⟩ (by decide) (by rfl)⟩


/-- C3: calling the add-fact entry point twice with the same calendar day
leaves `current_streak` unchanged from its value after the first call, while
each successful call increments the stored `total_facts_count` by exactly one
(the stored prior streak being non-negative per the data model). -/
theorem claim_C3 (row : UserRow) (p1 p2 : FactCreate) (now1 now2 : DateTime)
    (today : Date) (row1 row2 : UserRow)
    (hvt : today.Valid) (hc : 0 ≤ pyOrInt row.current_streak 0)
    (h1 : add_fact row p1 now1 today = .ok row1)
    (h2 : add_fact row1 p2 now2 today = .ok row2) :
    row2.current_streak = row1.current_streak ∧
    pyOrInt row1.total_facts_count 0 = pyOrInt row.total_facts_count 0 + 1 ∧
    pyOrInt row2.total_facts_count 0 = pyOrInt row1.total_facts_count 0 + 1 := by
  obtain ⟨t1, c1, _, a1, _⟩ := add_fact_ok_fields h1
  obtain ⟨t2, c2, _, _, _⟩ := add_fact_ok_fields h2
  have hpos : 1 ≤ (compute_new_streak row.current_streak row.longest_streak
      row.last_activity_date today).1 :=
    compute_new_streak_pos _ _ _ _ hc
  refine ⟨?_, ?_, ?_⟩
  · rw [c2, c1, a1]
    rw [compute_new_streak_same_day _ _ _ hvt
      (by rw [pyOrInt_some_zero]; omega)]
    rw [pyOrInt_some_zero]
  · rw [t1, pyOrInt_some_zero]
  · rw [t2, t1, pyOrInt_some_zero, pyOrInt_some_zero]

/-- Witness for C3 at a concrete input: two appends on 2024-01-03. -/
theorem claim_C3_witness :
    (⟨"alice",
      [⟨some "water helps", some "diet", none, some "2024-01-03T10:00:00Z"⟩,
       ⟨some "sleep well", some "sleep", none, some "2024-01-03T11:00:00Z"⟩],
      some 2, some 1, some 1, some "2024-01-03"⟩ : UserRow).current_streak =
      (⟨"alice",
        [⟨some "water helps", some "diet", none, some "2024-01-03T10:00:00Z"⟩],
        some 1, some 1, some 1, some "2024-01-03"⟩ : UserRow).current_streak ∧
    pyOrInt (some (1 : Int)) 0 = pyOrInt (some (0 : Int)) 0 + 1 ∧
    pyOrInt (some (2 : Int)) 0 = pyOrInt (some (1 : Int)) 0 + 1 := by
  have h := claim_C3 ⟨"alice", [], some 0, some 0, some 0, none⟩
    ⟨"water helps", some "diet", none⟩ ⟨"sleep well", some "sleep", none⟩
    ⟨⟨2024, 1, 3⟩, 10, 0, 0⟩ ⟨⟨2024, 1, 3⟩, 11, 0, 0⟩ ⟨2024, 1, 3⟩
    ⟨"alice", [⟨some "water helps", some "diet", none, some "2024-01-03T10:00:00Z"⟩],
      some 1, some 1, some 1, some "2024-01-03"⟩
    ⟨"alice",
      [⟨some "water helps", some "diet", none, some "2024-01-03T10:00:00Z"⟩,
       ⟨some "sleep well", some "sleep", none, some "2024-01-03T11:00:00Z"⟩],
      some 2, some 1, some 1, some "2024-01-03"⟩
    (by decide) (by decide) (by rfl) (by rfl)
  exact h

/-- C6: deserializing the stored fact list fails soft: absent input, input the
JSON decoder rejects, and input decoding to a non-list all yield the empty
list, and the function is total (never raises). -/
theorem claim_C6 (jsonLoads : String → Option Json) (raw : Option String)
    (h : raw = none ∨ ∃ s, raw = some s ∧ (jsonLoads s = none ∨
      ∀ xs, jsonLoads s ≠ some (Json.arr xs))) :
    _load_facts jsonLoads raw = [] := by
  rcases h with rfl | ⟨s, rfl, h⟩
  · rfl
  · show (if s.data = [] then [] else match jsonLoads s with
      | some (Json.arr xs) => xs
      | some _ => []
      | none => []) = []
    split_ifs
    · rfl
    · cases hj : jsonLoads s with
      | none => rfl
      | some j =>
        cases j with
        | null => rfl
        | boolean b => rfl
        | num n => rfl
        | str s2 => rfl
        | arr xs =>
          rcases h with h | h
          · rw [h] at hj; cases hj
          · exact absurd hj (h xs)
        | obj fs => rfl

/-- Witness for C6 at a concrete input: a decoder that rejects everything. -/
theorem claim_C6_witness :
    _load_facts (fun _ => none) (some "not json") = [] :=
  claim_C6 (fun _ => none) (some "not json")
    (Or.inr ⟨"not json", rfl, Or.inl rfl⟩)

/-- C7: a stored `last_activity_date` string that does not parse as a calendar
date makes `compute_new_streak` behave exactly as if the date were absent:
the whole result coincides and `new_current = 1`. -/
theorem claim_C7 (c l : Option Int) (s : String) (today : Date)
    (h : parse_last_activity (some s) = none) :
    compute_new_streak c l (some s) today = compute_new_streak c l none today ∧
    (compute_new_streak c l (some s) today).1 = 1 := by
  have e : compute_new_streak c l (some s) today =
      compute_new_streak c l none today := by
    unfold compute_new_streak
    rw [h]
    rfl
  refine ⟨e, ?_⟩
  rw [e]
  rfl

/-- Witness for C7 at a concrete input. -/
theorem claim_C7_witness :
    compute_new_streak (some 3) (some 5) (some "not-a-date") ⟨2024, 1, 3⟩ =
      compute_new_streak (some 3) (some 5) none ⟨2024, 1, 3⟩ ∧
    (compute_new_streak (some 3) (some 5) (some "not-a-date") ⟨2024, 1, 3⟩).1 = 1 :=
  claim_C7 (some 3) (some 5) "not-a-date" ⟨2024, 1, 3⟩ (by decide)

/-- C8: a `get_facts` call with `limit` outside `[1, 500]` fails with
`invalidArgument` for every store, target user id and caller — the limit
check runs before the access guard, so this holds even for nonexistent
users and users owned by someone else. -/
theorem claim_C8 (users : Nat → Option UserRow) (user_id : Nat) (caller : String)
    (limit : Int) (category : Option String) (h : limit < 1 ∨ 500 < limit) :
    get_facts users user_id caller limit category = .error .invalidArgument := by
  unfold get_facts
  rw [if_pos h]

/-- Witness for C8: `limit = 0` on a nonexistent user and `limit = 501` on a
user owned by someone else both fail with `invalidArgument`. -/
theorem claim_C8_witness :
    get_facts (fun _ => none) 7 "alice" 0 none = .error .invalidArgument ∧
    get_facts (fun i => if i = 1 then
        some ⟨"bob", [], some 0, some 0, some 0, none⟩ else none)
      1 "alice" 501 none = .error .invalidArgument :=
  ⟨claim_C8 (fun _ => none) 7 "alice" 0 none (by omega),
   claim_C8 (fun i => if i = 1 then
       some ⟨"bob", [], some 0, some 0, some 0, none⟩ else none)
     1 "alice" 501 none (by omega)⟩

/-- C9: an `add_fact` call with empty content fails with `validationError`
and appends nothing (it never returns an updated row). -/
theorem claim_C9 (row : UserRow) (payload : FactCreate) (now : DateTime)
    (today : Date) (h : payload.content = "") :
    add_fact row payload now today = .error .validationError ∧
    ∀ row', add_fact row payload now today ≠ .ok row' := by
  have e : add_fact row payload now today = .error .validationError := by
    unfold add_fact validate_fact_create
    rw [if_pos h]
  refine ⟨e, fun row' hcontra => ?_⟩
  rw [e] at hcontra
  cases hcontra

/-- Witness for C9 at a concrete input. -/
theorem claim_C9_witness :
    add_fact ⟨"alice", [], some 0, some 0, some 0, none⟩ ⟨"", some "diet", none⟩
      ⟨⟨2024, 1, 3⟩, 10, 0, 0⟩ ⟨2024, 1, 3⟩ = .error .validationError ∧
    ∀ row', add_fact ⟨"alice", [], some 0, some 0, some 0, none⟩
      ⟨"", some "diet", none⟩ ⟨⟨2024, 1, 3⟩, 10, 0, 0⟩ ⟨2024, 1, 3⟩ ≠ .ok row' :=
  claim_C9 ⟨"alice", [], some 0, some 0, some 0, none⟩ ⟨"", some "diet", none⟩
    ⟨⟨2024, 1, 3⟩, 10, 0, 0⟩ ⟨2024, 1, 3⟩ rfl


/-- C4: for every stored fact list, a permitted `get_facts` call with a valid
limit returns items sorted descending by `learned_at` (w.r.t. the datetime
key order, under which absent or unparsable timestamps take the oldest
possible value `datetime.min` and so never float to the top), returns at most
`limit` items, and returns `total` equal to the length of the
category-filtered list before truncation. -/
theorem claim_C4 (users : Nat → Option UserRow) (user_id : Nat) (caller : String)
    (u : UserRow) (limit : Int) (category : Option String)
    (hu : users user_id = some u) (howner : u.username = caller)
    (h1 : 1 ≤ limit) (h2 : limit ≤ 500) :
    ∃ items total,
      get_facts users user_id caller limit category = .ok (items, total) ∧
      items.Pairwise (fun a b => factLe a b = true) ∧
      items.length ≤ limit.toNat ∧
      total = (filter_by_category u.facts category).length ∧
      (∀ s, dtLe dtMin (_parse_dt s) = true) ∧
      _parse_dt none = dtMin ∧
      (∀ s : String, parseDateTimeChars s.data = none → _parse_dt (some s) = dtMin) := by
  refine ⟨((filter_by_category u.facts category).mergeSort factLe).take limit.toNat,
    (filter_by_category u.facts category).length, ?_, ?_, ?_, rfl, dtMin_le_parse_dt,
    parse_dt_none, fun s hs => parse_dt_unparsable hs⟩
  · have hacc : _ensure_user_access users user_id caller = .ok u := by
      unfold _ensure_user_access
      rw [hu]
      show (if u.username = caller then Except.ok u
        else Except.error ApiError.forbidden) = Except.ok u
      rw [if_pos howner]
    unfold get_facts
    rw [if_neg (by omega), hacc]
    rfl
  · exact List.Pairwise.sublist (List.take_sublist _ _)
      (@List.sorted_mergeSort FactEntry factLe
        (fun a b c hab hbc => factLe_trans hab hbc)
        factLe_total (filter_by_category u.facts category))
  · rw [List.length_take]
    exact min_le_left _ _

/-- Witness for C4: a user with five facts, three in category "diet", two in
"sleep", queried with `limit = 2` and `category = "diet"`; the filtered count
is three. -/
theorem claim_C4_witness :
    (∃ items total,
      get_facts (fun i => if i = 1 then
          some ⟨"alice",
            [⟨some "a", some "diet", none, some "2024-01-01T08:00:00Z"⟩,
             ⟨some "b", some "sleep", none, some "2024-01-02T08:00:00Z"⟩,
             ⟨some "c", some "diet", none, some "2024-01-03T08:00:00Z"⟩,
             ⟨some "d", some "sleep", none, some "2024-01-04T08:00:00Z"⟩,
             ⟨some "e", some "diet", none, some "2024-01-05T08:00:00Z"⟩],
            some 5, some 1, some 1, some "2024-01-05"⟩ else none)
        1 "alice" 2 (some "diet") = .ok (items, total) ∧
      items.Pairwise (fun a b => factLe a b = true) ∧
      items.length ≤ (2 : Int).toNat ∧
      total = (filter_by_category
        [⟨some "a", some "diet", none, some "2024-01-01T08:00:00Z"⟩,
         ⟨some "b", some "sleep", none, some "2024-01-02T08:00:00Z"⟩,
         ⟨some "c", some "diet", none, some "2024-01-03T08:00:00Z"⟩,
         ⟨some "d", some "sleep", none, some "2024-01-04T08:00:00Z"⟩,
         ⟨some "e", some "diet", none, some "2024-01-05T08:00:00Z"⟩]
        (some "diet")).length ∧
      (∀ s, dtLe dtMin (_parse_dt s) = true) ∧
      _parse_dt none = dtMin ∧
      (∀ s : String, parseDateTimeChars s.data = none → _parse_dt (some s) = dtMin)) ∧
    (filter_by_category
      [⟨some "a", some "diet", none, some "2024-01-01T08:00:00Z"⟩,
       ⟨some "b", some "sleep", none, some "2024-01-02T08:00:00Z"⟩,
       ⟨some "c", some "diet", none, some "2024-01-03T08:00:00Z"⟩,
       ⟨some "d", some "sleep", none, some "2024-01-04T08:00:00Z"⟩,
       ⟨some "e", some "diet", none, some "2024-01-05T08:00:00Z"⟩]
      (some "diet")).length = 3 :=
  ⟨claim_C4 (fun i => if i = 1 then
      some ⟨"alice",
        [⟨some "a", some "diet", none, some "2024-01-01T08:00:00Z"⟩,
         ⟨some "b", some "sleep", none, some "2024-01-02T08:00:00Z"⟩,
         ⟨some "c", some "diet", none, some "2024-01-03T08:00:00Z"⟩,
         ⟨some "d", some "sleep", none, some "2024-01-04T08:00:00Z"⟩,
         ⟨some "e", some "diet", none, some "2024-01-05T08:00:00Z"⟩],
        some 5, some 1, some 1, some "2024-01-05"⟩ else none)
    1 "alice"
    ⟨"alice",
      [⟨some "a", some "diet", none, some "2024-01-01T08:00:00Z"⟩,
       ⟨some "b", some "sleep", none, some "2024-01-02T08:00:00Z"⟩,
       ⟨some "c", some "diet", none, some "2024-01-03T08:00:00Z"⟩,
       ⟨some "d", some "sleep", none, some "2024-01-04T08:00:00Z"⟩,
       ⟨some "e", some "diet", none, some "2024-01-05T08:00:00Z"⟩],
      some 5, some 1, some 1, some "2024-01-05"⟩
    2 (some "diet") (by rfl) rfl (by omega) (by omega),
   by decide⟩

/-- C5: `facts_this_week` counts exactly the entries whose parsed
`learned_at` date lies in the inclusive 7-day ordinal window
`[toOrdinal today - 6, toOrdinal today]`; entries with absent or unparsable
timestamps contribute nothing (and the computation is total). -/
theorem claim_C5 (facts : List FactEntry) (today : Date)
    (hvt : today.Valid) (h7 : 7 ≤ today.toOrdinal) :
    facts_this_week facts today = facts.countP (fun f =>
      match f.learned_at with
      | none => false
      | some s =>
        match parseDateTimeChars s.data with
        | none => false
        | some dt => decide (today.toOrdinal - 6 ≤ dt.date.toOrdinal ∧
            dt.date.toOrdinal ≤ today.toOrdinal)) := by
  unfold facts_this_week
  refine List.countP_congr ?_
  intro f _
  obtain ⟨hwv, hwo⟩ := subDays_spec hvt (show 6 + 1 ≤ today.toOrdinal by omega)
  cases hl : f.learned_at with
  | none => simp
  | some s =>
    simp only
    split_ifs with hemp
    · rw [hemp]
      simp [show parseDateTimeChars ([] : List Char) = none from rfl]
    · cases hp : parseDateTimeChars s.data with
      | none => simp
      | some dt =>
        have hdv := (parseDateTimeChars_some_valid hp).1
        simp only [Bool.and_eq_true, decide_eq_true_eq]
        rw [dateLe_iff_toOrdinal hwv hdv, dateLe_iff_toOrdinal hdv hvt]
        omega

/-- Witness for C5: facts 6 and 8 days before 2024-01-10; exactly the one six
days prior is counted. -/
theorem claim_C5_witness :
    facts_this_week
      [⟨some "a", none, none, some "2024-01-04T08:00:00Z"⟩,
       ⟨some "b", none, none, some "2024-01-02T08:00:00Z"⟩] ⟨2024, 1, 10⟩ =
    List.countP (fun f =>
      match FactEntry.learned_at f with
      | none => false
      | some s =>
        match parseDateTimeChars s.data with
        | none => false
        | some dt => decide (Date.toOrdinal ⟨2024, 1, 10⟩ - 6 ≤ dt.date.toOrdinal ∧
            dt.date.toOrdinal ≤ Date.toOrdinal ⟨2024, 1, 10⟩))
      [⟨some "a", none, none, some "2024-01-04T08:00:00Z"⟩,
       ⟨some "b", none, none, some "2024-01-02T08:00:00Z"⟩] ∧
    facts_this_week
      [⟨some "a", none, none, some "2024-01-04T08:00:00Z"⟩,
       ⟨some "b", none, none, some "2024-01-02T08:00:00Z"⟩] ⟨2024, 1, 10⟩ = 1 :=
  ⟨claim_C5
    [⟨some "a", none, none, some "2024-01-04T08:00:00Z"⟩,
     ⟨some "b", none, none, some "2024-01-02T08:00:00Z"⟩] ⟨2024, 1, 10⟩
    (by decide) (by decide),
   by decide⟩

/-- Counterexample to C10 as stated: the backend consumers do NOT accept
legacy fractional-second timestamps. `get_facts._parse_dt` maps the concrete
fractional timestamp to `datetime.min` (the unparsable fallback), and
`get_streaks` excludes it from the weekly count even when its date lies in
the window, while the same instant in second-precision form is counted; only
the streamlit helper parses the fractional form. -/
theorem claim_C10_counterexample :
    parseDateTimeChars "2024-01-01T10:00:00.500000Z".data = none ∧
    _parse_dt (some "2024-01-01T10:00:00.500000Z") = dtMin ∧
    facts_this_week [⟨some "f", none, none,
      some "2024-01-01T10:00:00.500000Z"⟩] ⟨2024, 1, 1⟩ = 0 ∧
    facts_this_week [⟨some "f", none, none,
      some "2024-01-01T10:00:00Z"⟩] ⟨2024, 1, 1⟩ = 1 ∧
    show_recent_parse "2024-01-01T10:00:00.500000Z" =
      some ⟨⟨2024, 1, 1⟩, 10, 0, 0⟩ := by
  refine ⟨by decide, by decide, by decide, by decide, by decide⟩

/-- C10 as amended: the writer always emits the second-precision form
`%Y-%m-%dT%H:%M:%SZ`; the backend consumers parse exactly that form (treating
everything else, fractional seconds included, as unparsable); the streamlit
display consumer accepts both the second-precision form and the legacy
fractional-second form. -/
theorem claim_C10_amended :
    (∀ (row : UserRow) (p : FactCreate) (now : DateTime) (today : Date)
      (row' : UserRow), add_fact row p now today = .ok row' →
      ∃ f : FactEntry, row'.facts = row.facts ++ [f] ∧
        f.learned_at = some (formatDateTime now)) ∧
    (∀ t : DateTime, t.Valid → parseDateTimeChars (formatDateTime t).data = some t) ∧
    (∀ t : DateTime, t.Valid → show_recent_parse (formatDateTime t) = some t) ∧
    (∀ (t : DateTime) (u : Nat), t.Valid →
      show_recent_parse (formatDateTimeMicro t u) = some t) ∧
    (∀ s : String, parseDateTimeChars s.data = none → _parse_dt (some s) = dtMin) := by
  refine ⟨?_, fun t hv => parseDateTimeChars_format hv,
    fun t hv => show_recent_parse_canonical hv,
    fun t u hv => show_recent_parse_micro u hv,
    fun s hs => parse_dt_unparsable hs⟩
  intro row p now today row' h
  obtain ⟨_, _, _, _, f5⟩ := add_fact_ok_fields h
  exact ⟨_, f5, rfl⟩

/-- Witness for the amended C10 at concrete inputs. -/
theorem claim_C10_amended_witness :
    (∃ f : FactEntry,
      (⟨"alice", [⟨some "water helps", some "diet", none,
        some "2024-01-03T10:00:00Z"⟩], some 1, some 1, some 1,
        some "2024-01-03"⟩ : UserRow).facts =
        (⟨"alice", [], some 0, some 0, some 0, none⟩ : UserRow).facts ++ [f] ∧
      f.learned_at = some (formatDateTime ⟨⟨2024, 1, 3⟩, 10, 0, 0⟩)) ∧
    parseDateTimeChars (formatDateTime ⟨⟨2024, 1, 3⟩, 10, 0, 0⟩).data =
      some ⟨⟨2024, 1, 3⟩, 10, 0, 0⟩ ∧
    show_recent_parse (formatDateTime ⟨⟨2024, 1, 3⟩, 10, 0, 0⟩) =
      some ⟨⟨2024, 1, 3⟩, 10, 0, 0⟩ ∧
    show_recent_parse (formatDateTimeMicro ⟨⟨2024, 1, 3⟩, 10, 0, 0⟩ 500000) =
      some ⟨⟨2024, 1, 3⟩, 10, 0, 0⟩ ∧
    _parse_dt (some "nonsense") = dtMin :=
  ⟨claim_C10_amended.1 ⟨"alice", [], some 0, some 0, some 0, none⟩
    ⟨"water helps", some "diet", none⟩ ⟨⟨2024, 1, 3⟩, 10, 0, 0⟩ ⟨2024, 1, 3⟩
    ⟨"alice", [⟨some "water helps", some "diet", none,
      some "2024-01-03T10:00:00Z"⟩], some 1, some 1, some 1,
      some "2024-01-03"⟩ (by rfl),
   claim_C10_amended.2.1 ⟨⟨2024, 1, 3⟩, 10, 0, 0⟩ (by decide),
   claim_C10_amended.2.2.1 ⟨⟨2024, 1, 3⟩, 10, 0, 0⟩ (by decide),
   claim_C10_amended.2.2.2.1 ⟨⟨2024, 1, 3⟩, 10, 0, 0⟩ 500000 (by decide),
   claim_C10_amended.2.2.2.2 "nonsense" (by decide)⟩

end HealthFactAI
